import Mathlib

/-!
Shallow embedding of `src/check/controls.go` from munai-das/kube-bench.

The Go file defines the `Controls` / `Group` / `Summary` data model and the
run methods `NewControls`, `Controls.RunGroup`, `Controls.RunChecks`, plus the
three aggregation helpers `summarize`, `summarizeGroup`, `summarizeLevel`.

Modelling decisions, all driven by the source:
  * Go slices of pointers (`[]*Group`, `[]*Check`) are modelled as value
    lists.  Mutation through shared pointers is reproduced by processing all
    matches of one group (resp. one check id) consecutively — which is what
    the Go nested loops do — and by placing the *final* value of the object in
    every position where Go appended the same pointer.
  * `map[string]*Summary` is an association list; a lookup of a missing key
    followed by a field increment is a nil-pointer dereference in Go, modelled
    as `Option.none` (a runtime panic, distinct from a returned `error`).
  * `strconv.ParseUint(s, 10, 64)` is modelled by `parseUint`.
  * A run result `RunRes` carries the final `Controls` value, the returned
    `(Summary, error)` pair (`none` when the run panics instead of
    returning), and the list of check IDs on which `Check.Run` was invoked,
    in invocation order.
-/

namespace KubeBench

/-- Terminal check states. `check.go` is not under `src/`; the state constants
are modelled from the spec's closed enumeration PASS/FAIL/WARN/INFO/SKIP,
represented as strings as in the Go `State string` type. -/
def PASS : String := "PASS"

/-- Terminal state FAIL. -/
def FAIL : String := "FAIL"

/-- Terminal state WARN. -/
def WARN : String := "WARN"

/-- Terminal state INFO. -/
def INFO : String := "INFO"

/-- Terminal state SKIP. -/
def SKIP : String := "SKIP"

/-- One compliance check.  `check.go` is not under `src/`; the structure is
modelled from the spec (§3 Check) restricted to the fields that
`controls.go` reads or writes: `ID`, `Audit`, `Remediation`,
`CheckCISLevel`, `State`, `TestInfo`, `Commands`. -/
structure Check where
  ID : String
  Audit : String
  Remediation : String
  CheckCISLevel : String
  State : String
  TestInfo : List String
  Commands : List String
deriving DecidableEq

/-- Five result counters, mirroring Go `Summary`. -/
structure Summary where
  Pass : Nat
  Fail : Nat
  Warn : Nat
  Info : Nat
  Skip : Nat
deriving DecidableEq

/-- Group of checks, mirroring Go `Group` (fields ID, Pass, Fail, Warn, Skip,
Info, Text, Checks). -/
structure Group where
  ID : String
  Text : String
  Pass : Nat
  Fail : Nat
  Warn : Nat
  Skip : Nat
  Info : Nat
  Checks : List Check
deriving DecidableEq

/-- Association list standing for Go `map[string]*Summary`. -/
abbrev LvlMap := List (String × Summary)

/-- Root aggregate, mirroring Go `Controls`.  The Go field `Type` (a
`NodeType` string) is called `nodeType` here because `Type` is a Lean
keyword; the embedded Go field `Summary` is called `summary`. -/
structure Controls where
  ID : String
  Version : String
  Text : String
  nodeType : String
  UserCISLevel : String
  Groups : List Group
  summary : Summary
  SummaryLevelWise : LvlMap
deriving DecidableEq

/-- Zero summary, as produced by the reset assignments in the run methods. -/
def Summary.zero : Summary := ⟨0, 0, 0, 0, 0⟩

/-- Decimal value of a digit list (most significant first). -/
def digitsVal (acc : Nat) : List Char → Nat
  | [] => acc
  | c :: cs => digitsVal (acc * 10 + (c.toNat - 48)) cs

/-- Model of `strconv.ParseUint(s, 10, 64)`: digits only, non-empty, value
below 2^64.  Works on the string's character list so that it reduces in the
kernel. -/
def parseUint (s : String) : Option Nat :=
  if s.data.isEmpty then none
  else if s.data.all (fun ch => ch.isDigit) then
    let n := digitsVal 0 s.data
    if n < 18446744073709551616 then some n else none
  else none

/-- Go `summarize(controls, check)`: bump the global summary field selected by
the check's state; any other state is a no-op (the Go switch has no default
arm). -/
def summarize (s : Summary) (check : Check) : Summary :=
  if check.State = PASS then { s with Pass := s.Pass + 1 }
  else if check.State = FAIL then { s with Fail := s.Fail + 1 }
  else if check.State = WARN then { s with Warn := s.Warn + 1 }
  else if check.State = INFO then { s with Info := s.Info + 1 }
  else if check.State = SKIP then { s with Skip := s.Skip + 1 }
  else s

/-- Go `summarizeGroup(group, check)`: bump the owning group's counter
selected by the check's state. -/
def summarizeGroup (g : Group) (check : Check) : Group :=
  if check.State = PASS then { g with Pass := g.Pass + 1 }
  else if check.State = FAIL then { g with Fail := g.Fail + 1 }
  else if check.State = WARN then { g with Warn := g.Warn + 1 }
  else if check.State = INFO then { g with Info := g.Info + 1 }
  else if check.State = SKIP then { g with Skip := g.Skip + 1 }
  else g

/-- Lookup in the level map, Go `m[k]` (`none` = nil pointer). -/
def lvlGet (m : LvlMap) (k : String) : Option Summary :=
  (m.find? (fun p => p.1 == k)).map (fun p => p.2)

/-- Update the summary stored under an existing key of the level map. -/
def lvlSet (m : LvlMap) (k : String) (v : Summary) : LvlMap :=
  m.map (fun p => if p.1 == k then (p.1, v) else p)

/-- Increment through the level map: Go `m[k].Field++`.  A missing key is a
nil-pointer dereference, i.e. a panic, modelled as `none`. -/
def bumpLvl (m : LvlMap) (k : String) (f : Summary → Summary) : Option LvlMap :=
  match lvlGet m k with
  | none => none
  | some s => some (lvlSet m k (f s))

/-- Go `summarizeLevel(control, check)`: bump the summary stored under the
check's own `CheckCISLevel` key.  `none` models the nil-pointer panic that
occurs when the state matches one of the five arms but the key is absent
from `SummaryLevelWise`. -/
def summarizeLevel (m : LvlMap) (check : Check) : Option LvlMap :=
  if check.State = PASS then bumpLvl m check.CheckCISLevel (fun s => { s with Pass := s.Pass + 1 })
  else if check.State = FAIL then bumpLvl m check.CheckCISLevel (fun s => { s with Fail := s.Fail + 1 })
  else if check.State = WARN then bumpLvl m check.CheckCISLevel (fun s => { s with Warn := s.Warn + 1 })
  else if check.State = INFO then bumpLvl m check.CheckCISLevel (fun s => { s with Info := s.Info + 1 })
  else if check.State = SKIP then bumpLvl m check.CheckCISLevel (fun s => { s with Skip := s.Skip + 1 })
  else some m

/-- Modelled from the spec: `Check.Run` lives in `check.go`, which is not
under `src/`.  Per the spec (§2, §6) it is the opaque external audit
capability: it returns a terminal state for the check and leaves the
identifying fields unchanged.  It is modelled as an oracle `audit` giving
the state that running the audit procedure produces on the given check. -/
def Check.Run (audit : Check → String) (c : Check) : Check :=
  { c with State := audit c }

/-- Body of one check execution as performed by the run loops: optionally
force-set SKIP (RunGroup's gating assignment), invoke `Check.Run`, then
append the remediation text to `TestInfo`. -/
def execCheck (audit : Check → String) (gate : Bool) (ch : Check) : Check :=
  let ch1 := if gate then { ch with State := SKIP } else ch
  let ch2 := Check.Run audit ch1
  { ch2 with TestInfo := ch2.TestInfo ++ [ch2.Remediation] }

/-- Go `getAllGroupIDs`. -/
def getAllGroupIDs (c : Controls) : List String :=
  c.Groups.map (fun g => g.ID)

/-- Go `getAllCheckIDs`. -/
def getAllCheckIDs (c : Controls) : List String :=
  (c.Groups.map (fun g => g.Checks.map (fun ch => ch.ID))).flatten

/-- Returned Go `error` values of the run methods. -/
inductive GoErr where
  | userLevelParse
  | checkLevelParse
deriving DecidableEq

/-- Abnormal terminations of the RunGroup loops: an error return or a
runtime panic. -/
inductive Abort where
  | err (e : GoErr)
  | panik
deriving DecidableEq

/-- Initial level map built by both run methods:
`{"1": &Summary{0,..}, "2": &Summary{0,..}}`. -/
def initLvl : LvlMap := [("1", Summary.zero), ("2", Summary.zero)]

/-- Result of a run method.  `ctl` is the final Controls value, `ret` the
returned `(Summary, error)` pair (`none` when the run panics), `log` the
IDs of the checks on which `Check.Run` was invoked, in order. -/
structure RunRes where
  ctl : Controls
  ret : Option (Summary × Option GoErr)
  log : List String
deriving DecidableEq

/-- Output of processing one group's check list once in RunGroup. -/
structure GChecksOut where
  checks : List Check
  ctl : Controls
  grp : Group
  log : List String
  ab : Option Abort
deriving DecidableEq

/-- Inner check loop of `RunGroup` (lines 104-117 of controls.go) over one
group's check list: per check, parse its level (error return on failure),
gate, run, append remediation, then fold into the three summaries (panic
when the level key is missing). -/
def runGroupChecks (audit : Check → String) (u : Nat) :
    Controls → Group → List Check → GChecksOut
  | c, grp, [] => ⟨[], c, grp, [], none⟩
  | c, grp, ch :: rest =>
    match parseUint ch.CheckCISLevel with
    | none => ⟨ch :: rest, c, grp, [], some (Abort.err GoErr.checkLevelParse)⟩
    | some k =>
      let ch3 := execCheck audit (decide (u < k)) ch
      let c1 := { c with summary := summarize c.summary ch3 }
      let grp1 := summarizeGroup grp ch3
      match summarizeLevel c1.SummaryLevelWise ch3 with
      | none => ⟨ch3 :: rest, c1, grp1, [ch3.ID], some Abort.panik⟩
      | some m =>
        let out := runGroupChecks audit u { c1 with SummaryLevelWise := m } grp1 rest
        ⟨ch3 :: out.checks, out.ctl, out.grp, ch3.ID :: out.log, out.ab⟩

/-- Output of processing one group through all its gid matches. -/
structure GMatchOut where
  ctl : Controls
  grp : Group
  log : List String
  ab : Option Abort
deriving DecidableEq

/-- Processing of one group once per matching requested gid.  In Go the
matches of one group are consecutive iterations of the inner gid loop, all
mutating the same `*Group`. -/
def runGroupMatches (audit : Check → String) (u : Nat) :
    Nat → Controls → Group → GMatchOut
  | 0, c, grp => ⟨c, grp, [], none⟩
  | Nat.succ k, c, grp =>
    let out := runGroupChecks audit u c grp grp.Checks
    let grp2 := { out.grp with Checks := out.checks }
    match out.ab with
    | some a => ⟨out.ctl, grp2, out.log, some a⟩
    | none =>
      let next := runGroupMatches audit u k out.ctl grp2
      ⟨next.ctl, next.grp, out.log ++ next.log, next.ab⟩

/-- Output of the outer group loop of RunGroup. -/
structure GLoopOut where
  origGroups : List Group
  rebuilt : List Group
  ctl : Controls
  log : List String
  ab : Option Abort
deriving DecidableEq

/-- Outer loop of `RunGroup` (lines 100-122): for each catalog group, process
it once per matching gid and append it (the same pointer, hence the same
final value) once per match to the rebuilt list.  `origGroups` is the
original group list with the in-place mutations applied, which is what
`controls.Groups` still holds if the run aborts before line 124. -/
def runGroupLoop (audit : Check → String) (u : Nat) (gids : List String) :
    Controls → List Group → GLoopOut
  | c, [] => ⟨[], [], c, [], none⟩
  | c, grp :: rest =>
    let k := gids.countP (fun gid => gid == grp.ID)
    let mo := runGroupMatches audit u k c grp
    match mo.ab with
    | some a => ⟨mo.grp :: rest, [], mo.ctl, mo.log, some a⟩
    | none =>
      let out := runGroupLoop audit u gids mo.ctl rest
      ⟨mo.grp :: out.origGroups, List.replicate k mo.grp ++ out.rebuilt,
        out.ctl, mo.log ++ out.log, out.ab⟩

/-- Assembly of RunGroup's result from the loop output: on a returned error
or a panic `controls.Groups` keeps the (mutated) original list, on success
it is replaced by the rebuilt list (line 124). -/
def finishGroup (out : GLoopOut) : RunRes :=
  match out.ab with
  | some (Abort.err e) =>
    ⟨{ out.ctl with Groups := out.origGroups }, some (out.ctl.summary, some e), out.log⟩
  | some Abort.panik => ⟨{ out.ctl with Groups := out.origGroups }, none, out.log⟩
  | none => ⟨{ out.ctl with Groups := out.rebuilt }, some (out.ctl.summary, none), out.log⟩

/-- Go `Controls.RunGroup` (lines 83-126): reset the global and level-keyed
summaries, resolve empty gids to all group IDs, parse the user level
(error return on failure), run the group loop, and on success replace
`Groups` with the rebuilt list. -/
def RunGroup (audit : Check → String) (controls : Controls) (gids : List String) : RunRes :=
  let c0 := { controls with SummaryLevelWise := initLvl, summary := Summary.zero }
  let gids2 := if gids.isEmpty then getAllGroupIDs c0 else gids
  match parseUint c0.UserCISLevel with
  | none => ⟨c0, some (c0.summary, some GoErr.userLevelParse), []⟩
  | some u => finishGroup (runGroupLoop audit u gids2 c0 c0.Groups)

/-- Shell bookkeeping of `RunChecks` (lines 151-168): append the check to the
already-created shell for this group ID, or create a fresh shell (ID and
Text copied, counters zero) holding the check. -/
def upsertShell (g : List Group) (gid gtext : String) (ch : Check) : List Group :=
  if g.any (fun w => w.ID == gid) then
    g.map (fun w => if w.ID == gid then { w with Checks := w.Checks ++ [ch] } else w)
  else g ++ [{ ID := gid, Text := gtext, Pass := 0, Fail := 0, Warn := 0, Skip := 0, Info := 0, Checks := [ch] }]

/-- Output of running one check once per matching requested id. -/
structure CMatchOut where
  sum : Summary
  lvl : LvlMap
  check : Check
  log : List String
  panicked : Bool
deriving DecidableEq

/-- Innermost id loop of `RunChecks` for one check: once per matching id,
run the check, append remediation, and fold into the global and
level-keyed summaries (no group summary in this mode). -/
def runChecksMatches (audit : Check → String) :
    Nat → Summary → LvlMap → Check → CMatchOut
  | 0, s, m, ch => ⟨s, m, ch, [], false⟩
  | Nat.succ k, s, m, ch =>
    let ch2 := execCheck audit false ch
    let s1 := summarize s ch2
    match summarizeLevel m ch2 with
    | none => ⟨s1, m, ch2, [ch2.ID], true⟩
    | some m1 =>
      let out := runChecksMatches audit k s1 m1 ch2
      ⟨out.sum, out.lvl, out.check, ch2.ID :: out.log, out.panicked⟩

/-- Output of the check loop of RunChecks over one group's checks.
`matched` lists, with multiplicity and in append order, the final values
appended to this group's shell. -/
structure CListOut where
  sum : Summary
  lvl : LvlMap
  checks : List Check
  matched : List Check
  log : List String
  panicked : Bool
deriving DecidableEq

/-- Middle loop of `RunChecks` over one group's check list. -/
def runChecksList (audit : Check → String) (ids : List String) :
    Summary → LvlMap → List Check → CListOut
  | s, m, [] => ⟨s, m, [], [], [], false⟩
  | s, m, ch :: rest =>
    let k := ids.countP (fun i => i == ch.ID)
    let mo := runChecksMatches audit k s m ch
    if mo.panicked then ⟨mo.sum, mo.lvl, mo.check :: rest, [], mo.log, true⟩
    else
      let out := runChecksList audit ids mo.sum mo.lvl rest
      ⟨out.sum, out.lvl, mo.check :: out.checks,
        List.replicate k mo.check ++ out.matched, mo.log ++ out.log, out.panicked⟩

/-- Output of the outer group loop of RunChecks. -/
structure CLoopOut where
  sum : Summary
  lvl : LvlMap
  origGroups : List Group
  rebuilt : List Group
  log : List String
  panicked : Bool
deriving DecidableEq

/-- Outer loop of `RunChecks` (lines 142-173): per group, process its checks
and fold every appended check into the shell list, de-duplicated by group
ID. -/
def runChecksLoop (audit : Check → String) (ids : List String) :
    Summary → LvlMap → List Group → List Group → CLoopOut
  | s, m, [], g => ⟨s, m, [], g, [], false⟩
  | s, m, grp :: rest, g =>
    let lo := runChecksList audit ids s m grp.Checks
    let grp2 := { grp with Checks := lo.checks }
    if lo.panicked then ⟨lo.sum, lo.lvl, grp2 :: rest, g, lo.log, true⟩
    else
      let g1 := lo.matched.foldl (fun acc ch => upsertShell acc grp.ID grp.Text ch) g
      let out := runChecksLoop audit ids lo.sum lo.lvl rest g1
      ⟨out.sum, out.lvl, grp2 :: out.origGroups, out.rebuilt, lo.log ++ out.log, out.panicked⟩

/-- Assembly of RunChecks' result from the loop output: on a panic
`controls.Groups` keeps the (mutated) original list, on normal termination
it is replaced by the de-duplicated shell list (line 175) and the returned
error is nil. -/
def finishChecks (c0 : Controls) (out : CLoopOut) : RunRes :=
  if out.panicked then
    ⟨{ c0 with summary := out.sum, SummaryLevelWise := out.lvl, Groups := out.origGroups }, none, out.log⟩
  else
    ⟨{ c0 with summary := out.sum, SummaryLevelWise := out.lvl, Groups := out.rebuilt },
      some (out.sum, none), out.log⟩

/-- Go `Controls.RunChecks` (lines 129-177): reset the summaries, resolve
empty ids to all check IDs, run the loops (no level parsing, no gating),
and on normal termination replace `Groups` with the de-duplicated shell
list and return a nil error. -/
def RunChecks (audit : Check → String) (controls : Controls) (ids : List String) : RunRes :=
  let c0 := { controls with SummaryLevelWise := initLvl, summary := Summary.zero }
  let ids2 := if ids.isEmpty then getAllCheckIDs c0 else ids
  finishChecks c0 (runChecksLoop audit ids2 c0.summary c0.SummaryLevelWise c0.Groups [])

/-- Go `NewControls` (lines 59-80).  The YAML parser is external
(gopkg.in/yaml.v2); it is modelled by the `parsed` argument holding the
unmarshalled catalog (`none` = unmarshal error), which per the spec's input
format (§6) carries only catalog fields, not the user level.
`textToCommand` lives outside `src/` and is modelled from the spec as an
arbitrary pure text-to-command transformation, passed as a parameter.
After a successful parse: reject a node-type mismatch, set the
caller-supplied level, and derive every check's `Commands` from its
`Audit` text. -/
def NewControls (textToCommand : String → List String) (t : String) (level : String)
    (parsed : Option Controls) : Option Controls :=
  match parsed with
  | none => none
  | some parsedC =>
    let c := { parsedC with UserCISLevel := level }
    if t ≠ c.nodeType then none
    else some { c with Groups := c.Groups.map (fun g =>
      { g with Checks := g.Checks.map (fun ch =>
        { ch with Commands := textToCommand ch.Audit }) }) }

end KubeBench

namespace KubeBench

/-- Sum of the five counters of a summary. -/
def Summary.total (s : Summary) : Nat := s.Pass + s.Fail + s.Warn + s.Info + s.Skip

/-- Sum of the five counters of a group. -/
def Group.ctrTotal (g : Group) : Nat := g.Pass + g.Fail + g.Warn + g.Skip + g.Info

/-- Sum of all counters over all entries of a level map. -/
def lvlTotal (m : LvlMap) : Nat := (m.map (fun p => p.2.total)).sum

/-- Proposition that a state string is one of the five terminal states. -/
def stateIn5 (s : String) : Prop :=
  s = PASS ∨ s = FAIL ∨ s = WARN ∨ s = INFO ∨ s = SKIP

/-- Success of a run: it returned (did not panic) and the returned Go error
is nil. -/
def RunRes.isOk (r : RunRes) : Bool :=
  match r.ret with
  | some (_, none) => true
  | _ => false

/-- Returned Go error value of a run (`none` also when the run panicked,
since a panic returns no error value). -/
def errOf (r : RunRes) : Option GoErr := r.ret.bind (fun p => p.2)

/-- Number of check executions selected by a RunGroup request: one execution
per matching gid per check of the group. -/
def selGroup (gs : List Group) (gids : List String) : Nat :=
  (gs.map (fun g => gids.countP (fun gid => gid == g.ID) * g.Checks.length)).sum

/-- Number of check executions selected by a RunChecks request: one execution
per matching requested id per check. -/
def selChecks (gs : List Group) (ids : List String) : Nat :=
  (gs.map (fun g => (g.Checks.map (fun ch => ids.countP (fun i => i == ch.ID))).sum)).sum

/-- Sample check used in concrete scenarios. -/
def sampleCheck (id lvl : String) : Check :=
  { ID := id, Audit := "audit", Remediation := "rem", CheckCISLevel := lvl,
    State := "", TestInfo := [], Commands := [] }

/-- Sample group used in concrete scenarios. -/
def mkGroup (gid : String) (cs : List Check) : Group :=
  { ID := gid, Text := "text", Pass := 0, Fail := 0, Warn := 0, Skip := 0, Info := 0, Checks := cs }

/-- Sample controls used in concrete scenarios. -/
def mkCtl (ulvl : String) (gs : List Group) : Controls :=
  { ID := "cis", Version := "1", Text := "ctl", nodeType := "master",
    UserCISLevel := ulvl, Groups := gs, summary := Summary.zero, SummaryLevelWise := [] }

/-- Audit oracle whose every outcome is PASS. -/
def audPass : Check → String := fun _ => PASS

end KubeBench

namespace KubeBench

theorem finishGroup_log (out : GLoopOut) : (finishGroup out).log = out.log := by
  cases hab : out.ab with
  | none => simp [finishGroup, hab]
  | some a => cases a <;> simp [finishGroup, hab]

theorem finishGroup_isOk (out : GLoopOut) : (finishGroup out).isOk = true ↔ out.ab = none := by
  cases hab : out.ab with
  | none => simp [finishGroup, hab, RunRes.isOk]
  | some a => cases a <;> simp [finishGroup, hab, RunRes.isOk]

theorem finishGroup_ok_ctl (out : GLoopOut) (h : out.ab = none) :
    (finishGroup out).ctl = { out.ctl with Groups := out.rebuilt } := by
  unfold finishGroup
  rw [h]

theorem finishGroup_ok_ret (out : GLoopOut) (h : out.ab = none) :
    (finishGroup out).ret = some (out.ctl.summary, none) := by
  unfold finishGroup
  rw [h]

theorem finishGroup_err (out : GLoopOut) (s : Summary) (e : GoErr)
    (h : (finishGroup out).ret = some (s, some e)) :
    out.ab = some (Abort.err e) ∧ (finishGroup out).ctl.Groups = out.origGroups := by
  cases hab : out.ab with
  | none => rw [finishGroup_ok_ret out hab] at h; simp at h
  | some a =>
    cases a with
    | err e2 =>
      unfold finishGroup at h ⊢
      rw [hab] at h ⊢
      simp at h
      simp [h]
    | panik =>
      unfold finishGroup at h
      rw [hab] at h
      simp at h

theorem finishChecks_errOf (c0 : Controls) (out : CLoopOut) :
    errOf (finishChecks c0 out) = none := by
  unfold finishChecks errOf
  split <;> rfl

theorem finishChecks_ret (c0 : Controls) (out : CLoopOut) :
    (finishChecks c0 out).ret = if out.panicked then none else some (out.sum, none) := by
  unfold finishChecks
  split <;> rfl

theorem finishChecks_log (c0 : Controls) (out : CLoopOut) :
    (finishChecks c0 out).log = out.log := by
  unfold finishChecks
  split <;> rfl

theorem finishChecks_ctl (c0 : Controls) (out : CLoopOut) :
    (finishChecks c0 out).ctl = { c0 with summary := out.sum, SummaryLevelWise := out.lvl, Groups := (if out.panicked then out.origGroups else out.rebuilt) } := by
  unfold finishChecks
  split
  · next h => simp [h]
  · next h => simp [h]

theorem finishChecks_isOk (c0 : Controls) (out : CLoopOut) :
    (finishChecks c0 out).isOk = true ↔ out.panicked = false := by
  cases hp : out.panicked <;> simp [finishChecks, hp, RunRes.isOk]

end KubeBench

namespace KubeBench

theorem state5_decide (s : String) : stateIn5 s ∨ ¬ stateIn5 s := by
  unfold stateIn5
  by_cases h1 : s = PASS
  · left; left; exact h1
  · by_cases h2 : s = FAIL
    · left; right; left; exact h2
    · by_cases h3 : s = WARN
      · left; right; right; left; exact h3
      · by_cases h4 : s = INFO
        · left; right; right; right; left; exact h4
        · by_cases h5 : s = SKIP
          · left; right; right; right; right; exact h5
          · right; rintro (h|h|h|h|h) <;> contradiction

theorem summarize_total (s : Summary) (ch : Check) (h : stateIn5 ch.State) :
    (summarize s ch).total = s.total + 1 := by
  rcases h with h|h|h|h|h <;>
    simp [summarize, h, Summary.total, PASS, FAIL, WARN, INFO, SKIP] <;> omega

theorem summarizeGroup_facts (g : Group) (ch : Check) :
    (summarizeGroup g ch).ID = g.ID ∧ (summarizeGroup g ch).Text = g.Text
    ∧ (summarizeGroup g ch).Checks = g.Checks
    ∧ g.Pass ≤ (summarizeGroup g ch).Pass ∧ g.Fail ≤ (summarizeGroup g ch).Fail
    ∧ g.Warn ≤ (summarizeGroup g ch).Warn ∧ g.Skip ≤ (summarizeGroup g ch).Skip
    ∧ g.Info ≤ (summarizeGroup g ch).Info := by
  unfold summarizeGroup
  split_ifs <;> simp

theorem summarizeGroup_total (g : Group) (ch : Check) (h : stateIn5 ch.State) :
    (summarizeGroup g ch).ctrTotal = g.ctrTotal + 1 := by
  rcases h with h|h|h|h|h <;>
    simp [summarizeGroup, h, Group.ctrTotal, PASS, FAIL, WARN, INFO, SKIP] <;> omega

theorem execCheck_ID (audit : Check → String) (gate : Bool) (ch : Check) :
    (execCheck audit gate ch).ID = ch.ID := by
  cases gate <;> rfl

theorem execCheck_CheckCISLevel (audit : Check → String) (gate : Bool) (ch : Check) :
    (execCheck audit gate ch).CheckCISLevel = ch.CheckCISLevel := by
  cases gate <;> rfl

theorem execCheck_State (audit : Check → String) (gate : Bool) (ch : Check) :
    (execCheck audit gate ch).State = audit (if gate then { ch with State := SKIP } else ch) := by
  cases gate <;> rfl

theorem execCheck_State5 (audit : Check → String) (gate : Bool) (ch : Check)
    (haudit : ∀ c, stateIn5 (audit c)) : stateIn5 (execCheck audit gate ch).State := by
  rw [execCheck_State]
  exact haudit _


theorem lvlGet_nil (k : String) : lvlGet [] k = none := rfl

theorem lvlGet_cons (p : String × Summary) (ps : LvlMap) (k : String) :
    lvlGet (p :: ps) k = if p.1 == k then some p.2 else lvlGet ps k := by
  unfold lvlGet
  rw [List.find?_cons]
  by_cases hp : p.1 == k
  · simp [hp]
  · simp only [hp]
    rw [if_neg (by simp at hp; simp [hp])]

theorem lvlSet_cons (p : String × Summary) (ps : LvlMap) (k : String) (v : Summary) :
    lvlSet (p :: ps) k v = (if p.1 == k then (p.1, v) else p) :: lvlSet ps k v := rfl

theorem lvlGet_set_self (m : LvlMap) (k : String) (s v : Summary)
    (h : lvlGet m k = some s) : lvlGet (lvlSet m k v) k = some v := by
  induction m with
  | nil => simp [lvlGet_nil] at h
  | cons p ps ih =>
    by_cases hp : p.1 == k
    · simp [lvlGet_cons, lvlSet_cons, hp]
    · rw [lvlGet_cons, if_neg hp] at h
      rw [lvlSet_cons, if_neg hp, lvlGet_cons, if_neg hp]
      exact ih h

theorem lvlGet_set_other (m : LvlMap) (k k2 : String) (v : Summary)
    (h : k2 ≠ k) : lvlGet (lvlSet m k v) k2 = lvlGet m k2 := by
  induction m with
  | nil => rfl
  | cons p ps ih =>
    by_cases hp : p.1 == k
    · have hk : p.1 = k := by simpa using hp
      have hn : ¬ ((p.1 == k2) = true) := by
        simp only [hk, beq_iff_eq]
        exact fun he => h he.symm
      rw [lvlSet_cons, if_pos hp, lvlGet_cons, lvlGet_cons]
      have hn2 : ¬ (((p.1, v) : String × Summary).1 == k2) = true := hn
      rw [if_neg hn2, if_neg hn]
      exact ih
    · rw [lvlSet_cons, if_neg hp, lvlGet_cons, lvlGet_cons]
      by_cases h2 : p.1 == k2
      · rw [if_pos h2, if_pos h2]
      · rw [if_neg h2, if_neg h2]
        exact ih

theorem lvlGet_set_isSome (m : LvlMap) (k k2 : String) (v : Summary) :
    (lvlGet (lvlSet m k v) k2).isSome = (lvlGet m k2).isSome := by
  induction m with
  | nil => rfl
  | cons p ps ih =>
    rw [lvlSet_cons, lvlGet_cons, lvlGet_cons]
    by_cases hp : p.1 == k
    · rw [if_pos hp]
      by_cases h2 : p.1 == k2 <;> simp [h2, ih]
    · rw [if_neg hp]
      by_cases h2 : p.1 == k2 <;> simp [h2, ih]


end KubeBench

namespace KubeBench

theorem summarizeLevel_not5 (m : LvlMap) (ch : Check) (h : ¬ stateIn5 ch.State) :
    summarizeLevel m ch = some m := by
  unfold stateIn5 at h
  push_neg at h
  obtain ⟨h1, h2, h3, h4, h5⟩ := h
  unfold summarizeLevel
  rw [if_neg h1, if_neg h2, if_neg h3, if_neg h4, if_neg h5]

theorem summarizeLevel_missing (m : LvlMap) (ch : Check) (h5 : stateIn5 ch.State)
    (h : lvlGet m ch.CheckCISLevel = none) : summarizeLevel m ch = none := by
  have hb : ∀ f, bumpLvl m ch.CheckCISLevel f = none := by
    intro f
    unfold bumpLvl
    rw [h]
  rcases h5 with h5|h5|h5|h5|h5 <;> unfold summarizeLevel <;>
    simp [h5, PASS, FAIL, WARN, INFO, SKIP, hb]

theorem summarizeLevel_present (m : LvlMap) (ch : Check) (s : Summary) (h5 : stateIn5 ch.State)
    (h : lvlGet m ch.CheckCISLevel = some s) :
    ∃ s2 : Summary, s2.total = s.total + 1
      ∧ summarizeLevel m ch = some (lvlSet m ch.CheckCISLevel s2) := by
  rcases h5 with h5|h5|h5|h5|h5 <;> unfold summarizeLevel <;>
    simp [h5, PASS, FAIL, WARN, INFO, SKIP, bumpLvl, h]
  · exact ⟨_, by simp [Summary.total]; omega, rfl⟩
  · exact ⟨_, by simp [Summary.total]; omega, rfl⟩
  · exact ⟨_, by simp [Summary.total]; omega, rfl⟩
  · exact ⟨_, by simp [Summary.total]; omega, rfl⟩
  · exact ⟨_, by simp [Summary.total]; omega, rfl⟩

theorem summarizeLevel_keys (m m2 : LvlMap) (ch : Check)
    (h : summarizeLevel m ch = some m2) :
    ∀ k2, (lvlGet m2 k2).isSome = (lvlGet m k2).isSome := by
  intro k2
  rcases state5_decide ch.State with h5 | h5
  · cases hg : lvlGet m ch.CheckCISLevel with
    | none => rw [summarizeLevel_missing m ch h5 hg] at h; cases h
    | some s =>
      obtain ⟨s2, _, heq⟩ := summarizeLevel_present m ch s h5 hg
      rw [heq] at h
      cases h
      exact lvlGet_set_isSome m ch.CheckCISLevel k2 s2
  · rw [summarizeLevel_not5 m ch h5] at h
    cases h
    rfl


end KubeBench

namespace KubeBench

theorem lvlSet_keys (m : LvlMap) (k : String) (v : Summary) :
    (lvlSet m k v).map Prod.fst = m.map Prod.fst := by
  induction m with
  | nil => rfl
  | cons p ps ih =>
    rw [lvlSet_cons]
    by_cases hp : p.1 == k
    · simp only [if_pos hp, List.map_cons, ih]
    · simp only [if_neg hp, List.map_cons, ih]

theorem lvlSet_not_mem (m : LvlMap) (k : String) (v : Summary)
    (h : k ∉ m.map Prod.fst) : lvlSet m k v = m := by
  induction m with
  | nil => rfl
  | cons p ps ih =>
    simp only [List.map_cons, List.mem_cons] at h
    push_neg at h
    rw [lvlSet_cons, if_neg (by simp [beq_iff_eq]; exact fun he => h.1 he.symm)]
    rw [ih h.2]

theorem lvlTotal_nil : lvlTotal [] = 0 := rfl

theorem lvlTotal_cons (p : String × Summary) (ps : LvlMap) :
    lvlTotal (p :: ps) = p.2.total + lvlTotal ps := by
  simp [lvlTotal]

theorem lvlTotal_set (m : LvlMap) (k : String) (s v : Summary)
    (hnd : (m.map Prod.fst).Nodup) (h : lvlGet m k = some s) :
    lvlTotal (lvlSet m k v) + s.total = lvlTotal m + v.total := by
  induction m with
  | nil => simp [lvlGet_nil] at h
  | cons p ps ih =>
    rw [List.map_cons, List.nodup_cons] at hnd
    rw [lvlGet_cons] at h
    rw [lvlSet_cons]
    by_cases hp : p.1 == k
    · rw [if_pos hp] at h ⊢
      have hk : p.1 = k := by simpa using hp
      have hnm : k ∉ ps.map Prod.fst := by rw [← hk]; exact hnd.1
      rw [lvlSet_not_mem ps k v hnm]
      rw [lvlTotal_cons, lvlTotal_cons]
      have hs : p.2 = s := by simpa using h
      rw [hs]
      ring
    · rw [if_neg hp] at h ⊢
      rw [lvlTotal_cons, lvlTotal_cons]
      have := ih hnd.2 h
      omega

theorem summarizeLevel_keysEq (m m2 : LvlMap) (ch : Check)
    (h : summarizeLevel m ch = some m2) : m2.map Prod.fst = m.map Prod.fst := by
  rcases state5_decide ch.State with h5 | h5
  · cases hg : lvlGet m ch.CheckCISLevel with
    | none => rw [summarizeLevel_missing m ch h5 hg] at h; cases h
    | some s =>
      obtain ⟨s2, _, heq⟩ := summarizeLevel_present m ch s h5 hg
      rw [heq] at h
      cases h
      exact lvlSet_keys m ch.CheckCISLevel s2
  · rw [summarizeLevel_not5 m ch h5] at h
    cases h
    rfl

theorem summarizeLevel_bump (m m2 : LvlMap) (ch : Check)
    (hnd : (m.map Prod.fst).Nodup) (h5 : stateIn5 ch.State)
    (h : summarizeLevel m ch = some m2) : lvlTotal m2 = lvlTotal m + 1 := by
  cases hg : lvlGet m ch.CheckCISLevel with
  | none => rw [summarizeLevel_missing m ch h5 hg] at h; cases h
  | some s =>
    obtain ⟨s2, hs2, heq⟩ := summarizeLevel_present m ch s h5 hg
    rw [heq] at h
    cases h
    have := lvlTotal_set m ch.CheckCISLevel s s2 hnd hg
    omega


end KubeBench

namespace KubeBench

theorem runGroupChecks_ok (audit : Check → String) (u : Nat) (cs : List Check) :
    ∀ (c : Controls) (grp : Group), (runGroupChecks audit u c grp cs).ab = none →
      (runGroupChecks audit u c grp cs).checks.length = cs.length
      ∧ (runGroupChecks audit u c grp cs).log.length = cs.length
      ∧ (runGroupChecks audit u c grp cs).grp.ID = grp.ID
      ∧ (runGroupChecks audit u c grp cs).grp.Text = grp.Text
      ∧ (runGroupChecks audit u c grp cs).grp.Checks = grp.Checks
      ∧ grp.Pass ≤ (runGroupChecks audit u c grp cs).grp.Pass
      ∧ grp.Fail ≤ (runGroupChecks audit u c grp cs).grp.Fail
      ∧ grp.Warn ≤ (runGroupChecks audit u c grp cs).grp.Warn
      ∧ grp.Skip ≤ (runGroupChecks audit u c grp cs).grp.Skip
      ∧ grp.Info ≤ (runGroupChecks audit u c grp cs).grp.Info
      ∧ ((∀ ch2, stateIn5 (audit ch2)) →
          (runGroupChecks audit u c grp cs).ctl.summary.total = c.summary.total + cs.length
          ∧ (runGroupChecks audit u c grp cs).grp.ctrTotal = grp.ctrTotal + cs.length)
      ∧ (runGroupChecks audit u c grp cs).ctl.SummaryLevelWise.map Prod.fst
          = c.SummaryLevelWise.map Prod.fst
      ∧ ((∀ ch2, stateIn5 (audit ch2)) → (c.SummaryLevelWise.map Prod.fst).Nodup →
          lvlTotal (runGroupChecks audit u c grp cs).ctl.SummaryLevelWise
            = lvlTotal c.SummaryLevelWise + cs.length) := by
  induction cs with
  | nil =>
    intro c grp hab
    simp [runGroupChecks]
  | cons ch rest ih =>
    intro c grp hab
    simp only [runGroupChecks] at hab ⊢
    cases hp : parseUint ch.CheckCISLevel with
    | none => rw [hp] at hab; simp at hab
    | some k =>
      rw [hp] at hab
      dsimp only at hab ⊢
      cases hm : summarizeLevel c.SummaryLevelWise (execCheck audit (decide (u < k)) ch) with
      | none => rw [hm] at hab; simp at hab
      | some m =>
        rw [hm] at hab
        dsimp only at hab ⊢
        have hrec := ih _ _ hab
        obtain ⟨hlen, hlog, hid, htext, hchecks, hp1, hp2, hp3, hp4, hp5, htot, hkeys, hlvl⟩ := hrec
        have hkm := summarizeLevel_keysEq _ _ _ hm
        have hsg := summarizeGroup_facts grp (execCheck audit (decide (u < k)) ch)
        refine ⟨by simp [hlen], by simp [hlog], ?_, ?_, ?_, ?_, ?_, ?_, ?_, ?_, ?_, ?_, ?_⟩
        · rw [hid, hsg.1]
        · rw [htext, hsg.2.1]
        · rw [hchecks, hsg.2.2.1]
        · exact le_trans hsg.2.2.2.1 hp1
        · exact le_trans hsg.2.2.2.2.1 hp2
        · exact le_trans hsg.2.2.2.2.2.1 hp3
        · exact le_trans hsg.2.2.2.2.2.2.1 hp4
        · exact le_trans hsg.2.2.2.2.2.2.2 hp5
        · intro haudit
          have h5 := execCheck_State5 audit (decide (u < k)) ch haudit
          obtain ⟨ht1, ht2⟩ := htot haudit
          constructor
          · rw [ht1]
            have := summarize_total c.summary (execCheck audit (decide (u < k)) ch) h5
            simp only [List.length_cons]
            rw [this]
            omega
          · rw [ht2]
            have := summarizeGroup_total grp (execCheck audit (decide (u < k)) ch) h5
            simp only [List.length_cons]
            rw [this]
            omega
        · rw [hkeys, hkm]
        · intro haudit hnd
          have h5 := execCheck_State5 audit (decide (u < k)) ch haudit
          have hndm : ((summarizeLevel c.SummaryLevelWise (execCheck audit (decide (u < k)) ch)).getD [] |>.map Prod.fst).Nodup := by
            rw [hm]
            simp only [Option.getD_some]
            rw [hkm]
            exact hnd
          have hb := summarizeLevel_bump c.SummaryLevelWise _ (execCheck audit (decide (u < k)) ch) hnd h5 hm
          have hrest := hlvl haudit (by rw [hkm]; exact hnd)
          rw [hrest, hb]
          simp only [List.length_cons]
          omega


end KubeBench

namespace KubeBench

theorem runGroupMatches_ok (audit : Check → String) (u : Nat) (k : Nat) :
    ∀ (c : Controls) (grp : Group), (runGroupMatches audit u k c grp).ab = none →
      (runGroupMatches audit u k c grp).grp.ID = grp.ID
      ∧ (runGroupMatches audit u k c grp).grp.Checks.length = grp.Checks.length
      ∧ grp.Pass ≤ (runGroupMatches audit u k c grp).grp.Pass
      ∧ grp.Fail ≤ (runGroupMatches audit u k c grp).grp.Fail
      ∧ grp.Warn ≤ (runGroupMatches audit u k c grp).grp.Warn
      ∧ grp.Skip ≤ (runGroupMatches audit u k c grp).grp.Skip
      ∧ grp.Info ≤ (runGroupMatches audit u k c grp).grp.Info
      ∧ (runGroupMatches audit u k c grp).log.length = k * grp.Checks.length
      ∧ ((∀ ch2, stateIn5 (audit ch2)) →
          (runGroupMatches audit u k c grp).ctl.summary.total = c.summary.total + k * grp.Checks.length)
      ∧ ((∀ ch2, stateIn5 (audit ch2)) →
          (runGroupMatches audit u k c grp).grp.ctrTotal = grp.ctrTotal + k * grp.Checks.length)
      ∧ (runGroupMatches audit u k c grp).ctl.SummaryLevelWise.map Prod.fst
          = c.SummaryLevelWise.map Prod.fst
      ∧ ((∀ ch2, stateIn5 (audit ch2)) → (c.SummaryLevelWise.map Prod.fst).Nodup →
          lvlTotal (runGroupMatches audit u k c grp).ctl.SummaryLevelWise
            = lvlTotal c.SummaryLevelWise + k * grp.Checks.length) := by
  induction k with
  | zero =>
    intro c grp hab
    simp [runGroupMatches]
  | succ k ih =>
    intro c grp hab
    simp only [runGroupMatches] at hab ⊢
    cases ha : (runGroupChecks audit u c grp grp.Checks).ab with
    | some a => rw [ha] at hab; simp at hab
    | none =>
      rw [ha] at hab
      dsimp only at hab ⊢
      obtain ⟨hlen, hlog, hid, htext, hchecks, hq1, hq2, hq3, hq4, hq5, htot, hkeys, hlvl⟩ :=
        runGroupChecks_ok audit u grp.Checks c grp ha
      have hrec := ih (runGroupChecks audit u c grp grp.Checks).ctl
        { (runGroupChecks audit u c grp grp.Checks).grp with Checks := (runGroupChecks audit u c grp grp.Checks).checks } hab
      obtain ⟨rid, rlen, rp1, rp2, rp3, rp4, rp5, rlog, rtot, rctr, rkeys, rlvl⟩ := hrec
      refine ⟨?_, ?_, ?_, ?_, ?_, ?_, ?_, ?_, ?_, ?_, ?_, ?_⟩
      · rw [rid]; exact hid
      · rw [rlen]; simp [hlen]
      · exact le_trans hq1 rp1
      · exact le_trans hq2 rp2
      · exact le_trans hq3 rp3
      · exact le_trans hq4 rp4
      · exact le_trans hq5 rp5
      · rw [List.length_append, hlog, rlog]
        simp only [hlen]
        ring
      · intro haudit
        rw [rtot haudit, (htot haudit).1]
        simp only [hlen]
        ring
      · intro haudit
        have h2 := rctr haudit
        have h1 := (htot haudit).2
        have hg2 : Group.ctrTotal { (runGroupChecks audit u c grp grp.Checks).grp with Checks := (runGroupChecks audit u c grp grp.Checks).checks } = (runGroupChecks audit u c grp grp.Checks).grp.ctrTotal := rfl
        rw [h2, hg2, h1]
        simp only [hlen]
        ring
      · rw [rkeys, hkeys]
      · intro haudit hnd
        have hndm : (((runGroupChecks audit u c grp grp.Checks).ctl.SummaryLevelWise).map Prod.fst).Nodup := by
          rw [hkeys]; exact hnd
        rw [rlvl haudit hndm, hlvl haudit hnd]
        simp only [hlen]
        ring

theorem selGroup_nil (gids : List String) : selGroup [] gids = 0 := rfl

theorem selGroup_cons (grp : Group) (rest : List Group) (gids : List String) :
    selGroup (grp :: rest) gids
      = gids.countP (fun gid => gid == grp.ID) * grp.Checks.length + selGroup rest gids := by
  simp [selGroup]

theorem runGroupLoop_origLen (audit : Check → String) (u : Nat) (gids : List String) :
    ∀ (gs : List Group) (c : Controls),
      (runGroupLoop audit u gids c gs).origGroups.length = gs.length := by
  intro gs
  induction gs with
  | nil => intro c; rfl
  | cons grp rest ih =>
    intro c
    simp only [runGroupLoop]
    cases ha : (runGroupMatches audit u (gids.countP (fun gid => gid == grp.ID)) c grp).ab with
    | some a => dsimp only; simp
    | none =>
      dsimp only
      simp [ih]

theorem runGroupLoop_ok (audit : Check → String) (u : Nat) (gids : List String) :
    ∀ (gs : List Group) (c : Controls), (runGroupLoop audit u gids c gs).ab = none →
      (∀ w ∈ (runGroupLoop audit u gids c gs).rebuilt,
        ∃ g0 ∈ gs, w.ID = g0.ID ∧ g0.Pass ≤ w.Pass ∧ g0.Fail ≤ w.Fail
          ∧ g0.Warn ≤ w.Warn ∧ g0.Skip ≤ w.Skip ∧ g0.Info ≤ w.Info
          ∧ ((∀ ch2, stateIn5 (audit ch2)) →
              w.ctrTotal = g0.ctrTotal + gids.countP (fun gid => gid == g0.ID) * g0.Checks.length))
      ∧ (runGroupLoop audit u gids c gs).log.length = selGroup gs gids
      ∧ ((∀ ch2, stateIn5 (audit ch2)) →
          (runGroupLoop audit u gids c gs).ctl.summary.total = c.summary.total + selGroup gs gids)
      ∧ (runGroupLoop audit u gids c gs).ctl.SummaryLevelWise.map Prod.fst
          = c.SummaryLevelWise.map Prod.fst
      ∧ ((∀ ch2, stateIn5 (audit ch2)) → (c.SummaryLevelWise.map Prod.fst).Nodup →
          lvlTotal (runGroupLoop audit u gids c gs).ctl.SummaryLevelWise
            = lvlTotal c.SummaryLevelWise + selGroup gs gids) := by
  intro gs
  induction gs with
  | nil =>
    intro c hab
    refine ⟨?_, rfl, ?_, rfl, ?_⟩
    · intro w hw
      simp [runGroupLoop] at hw
    · intro haudit
      simp [runGroupLoop, selGroup_nil]
    · intro haudit hnd
      simp [runGroupLoop, selGroup_nil]
  | cons grp rest ih =>
    intro c hab
    simp only [runGroupLoop] at hab ⊢
    cases ha : (runGroupMatches audit u (gids.countP (fun gid => gid == grp.ID)) c grp).ab with
    | some a => rw [ha] at hab; simp at hab
    | none =>
      rw [ha] at hab
      dsimp only at hab ⊢
      obtain ⟨mid, mlen, mp1, mp2, mp3, mp4, mp5, mlog, mtot, mctr, mkeys, mlvl⟩ :=
        runGroupMatches_ok audit u (gids.countP (fun gid => gid == grp.ID)) c grp ha
      obtain ⟨rmem, rlog, rtot, rkeys, rlvl⟩ :=
        ih (runGroupMatches audit u (gids.countP (fun gid => gid == grp.ID)) c grp).ctl hab
      refine ⟨?_, ?_, ?_, ?_, ?_⟩
      · intro w hw
        rw [List.mem_append] at hw
        cases hw with
        | inl hrep =>
          rw [List.mem_replicate] at hrep
          refine ⟨grp, List.mem_cons_self _ _, ?_⟩
          rw [hrep.2]
          exact ⟨mid, mp1, mp2, mp3, mp4, mp5, fun haudit => mctr haudit⟩
        | inr hrest =>
          obtain ⟨g0, hg0, hrel⟩ := rmem w hrest
          exact ⟨g0, List.mem_cons_of_mem _ hg0, hrel⟩
      · rw [List.length_append, mlog, rlog, selGroup_cons]
      · intro haudit
        rw [rtot haudit, mtot haudit, selGroup_cons]
        ring
      · rw [rkeys, mkeys]
      · intro haudit hnd
        have hndm : (((runGroupMatches audit u (gids.countP (fun gid => gid == grp.ID)) c grp).ctl.SummaryLevelWise).map Prod.fst).Nodup := by
          rw [mkeys]; exact hnd
        rw [rlvl haudit hndm, mlvl haudit hnd, selGroup_cons]
        ring

theorem selChecks_nil (ids : List String) : selChecks [] ids = 0 := rfl

theorem selChecks_cons (grp : Group) (rest : List Group) (ids : List String) :
    selChecks (grp :: rest) ids
      = (grp.Checks.map (fun ch => ids.countP (fun i => i == ch.ID))).sum + selChecks rest ids := by
  simp [selChecks]

theorem runChecksMatches_ok (audit : Check → String) (k : Nat) :
    ∀ (s : Summary) (m : LvlMap) (ch : Check),
      (runChecksMatches audit k s m ch).panicked = false →
      (runChecksMatches audit k s m ch).check.ID = ch.ID
      ∧ (runChecksMatches audit k s m ch).log.length = k
      ∧ ((∀ ch2, stateIn5 (audit ch2)) →
          (runChecksMatches audit k s m ch).sum.total = s.total + k)
      ∧ (runChecksMatches audit k s m ch).lvl.map Prod.fst = m.map Prod.fst
      ∧ ((∀ ch2, stateIn5 (audit ch2)) → (m.map Prod.fst).Nodup →
          lvlTotal (runChecksMatches audit k s m ch).lvl = lvlTotal m + k) := by
  induction k with
  | zero =>
    intro s m ch hp
    simp [runChecksMatches]
  | succ k ih =>
    intro s m ch hp
    simp only [runChecksMatches] at hp ⊢
    cases hm : summarizeLevel m (execCheck audit false ch) with
    | none => rw [hm] at hp; simp at hp
    | some m1 =>
      rw [hm] at hp
      dsimp only at hp ⊢
      obtain ⟨rid, rlog, rtot, rkeys, rlvl⟩ := ih (summarize s (execCheck audit false ch)) m1 (execCheck audit false ch) hp
      have hkm := summarizeLevel_keysEq _ _ _ hm
      refine ⟨?_, ?_, ?_, ?_, ?_⟩
      · rw [rid, execCheck_ID]
      · simp [rlog]
      · intro haudit
        rw [rtot haudit, summarize_total s (execCheck audit false ch) (execCheck_State5 audit false ch haudit)]
        omega
      · rw [rkeys, hkm]
      · intro haudit hnd
        have hndm : (m1.map Prod.fst).Nodup := by rw [hkm]; exact hnd
        have hb := summarizeLevel_bump m m1 (execCheck audit false ch) hnd (execCheck_State5 audit false ch haudit) hm
        rw [rlvl haudit hndm, hb]
        omega

theorem runChecksList_ok (audit : Check → String) (ids : List String) :
    ∀ (cs : List Check) (s : Summary) (m : LvlMap),
      (runChecksList audit ids s m cs).panicked = false →
      (runChecksList audit ids s m cs).checks.length = cs.length
      ∧ (runChecksList audit ids s m cs).log.length
          = (cs.map (fun ch => ids.countP (fun i => i == ch.ID))).sum
      ∧ ((∀ ch2, stateIn5 (audit ch2)) →
          (runChecksList audit ids s m cs).sum.total
            = s.total + (cs.map (fun ch => ids.countP (fun i => i == ch.ID))).sum)
      ∧ (runChecksList audit ids s m cs).lvl.map Prod.fst = m.map Prod.fst
      ∧ ((∀ ch2, stateIn5 (audit ch2)) → (m.map Prod.fst).Nodup →
          lvlTotal (runChecksList audit ids s m cs).lvl
            = lvlTotal m + (cs.map (fun ch => ids.countP (fun i => i == ch.ID))).sum) := by
  intro cs
  induction cs with
  | nil =>
    intro s m hp
    simp [runChecksList]
  | cons ch rest ih =>
    intro s m hp
    simp only [runChecksList] at hp ⊢
    cases hmo : (runChecksMatches audit (ids.countP (fun i => i == ch.ID)) s m ch).panicked with
    | true => rw [hmo] at hp; simp at hp
    | false =>
      rw [hmo] at hp
      simp only [Bool.false_eq_true, if_false] at hp ⊢
      obtain ⟨mid, mlog, mtot, mkeys, mlvl⟩ := runChecksMatches_ok audit (ids.countP (fun i => i == ch.ID)) s m ch hmo
      obtain ⟨rlen, rlog, rtot, rkeys, rlvl⟩ := ih (runChecksMatches audit (ids.countP (fun i => i == ch.ID)) s m ch).sum
        (runChecksMatches audit (ids.countP (fun i => i == ch.ID)) s m ch).lvl hp
      refine ⟨?_, ?_, ?_, ?_, ?_⟩
      · simp [rlen]
      · rw [List.length_append, mlog, rlog]
        simp
      · intro haudit
        rw [rtot haudit, mtot haudit]
        simp
        omega
      · rw [rkeys, mkeys]
      · intro haudit hnd
        have hndm : (((runChecksMatches audit (ids.countP (fun i => i == ch.ID)) s m ch).lvl).map Prod.fst).Nodup := by
          rw [mkeys]; exact hnd
        rw [rlvl haudit hndm, mlvl haudit hnd]
        simp
        omega

/-- Proposition that all five counters of a group are zero. -/
def Group.zeroCtr (g : Group) : Prop :=
  g.Pass = 0 ∧ g.Fail = 0 ∧ g.Warn = 0 ∧ g.Skip = 0 ∧ g.Info = 0

theorem upsertShell_zero (g : List Group) (gid gtext : String) (ch : Check)
    (h : ∀ w ∈ g, w.zeroCtr) : ∀ w ∈ upsertShell g gid gtext ch, w.zeroCtr := by
  intro w hw
  unfold upsertShell at hw
  split at hw
  · rw [List.mem_map] at hw
    obtain ⟨w0, hw0, heq⟩ := hw
    by_cases hid : (w0.ID == gid) = true
    · rw [if_pos hid] at heq
      have := h w0 hw0
      rw [← heq]
      exact ⟨this.1, this.2.1, this.2.2.1, this.2.2.2.1, this.2.2.2.2⟩
    · rw [if_neg hid] at heq
      rw [← heq]
      exact h w0 hw0
  · rw [List.mem_append] at hw
    cases hw with
    | inl hl => exact h w hl
    | inr hr =>
      rw [List.mem_singleton] at hr
      rw [hr]
      exact ⟨rfl, rfl, rfl, rfl, rfl⟩

theorem foldl_upsert_zero (gid gtext : String) :
    ∀ (matched : List Check) (g : List Group), (∀ w ∈ g, w.zeroCtr) →
      ∀ w ∈ matched.foldl (fun acc ch => upsertShell acc gid gtext ch) g, w.zeroCtr := by
  intro matched
  induction matched with
  | nil => intro g hg; simpa using hg
  | cons ch rest ih =>
    intro g hg
    simp only [List.foldl_cons]
    exact ih (upsertShell g gid gtext ch) (upsertShell_zero g gid gtext ch hg)

theorem runChecksLoop_ok (audit : Check → String) (ids : List String) :
    ∀ (gs : List Group) (s : Summary) (m : LvlMap) (g : List Group),
      (runChecksLoop audit ids s m gs g).panicked = false →
      ((∀ w ∈ g, w.zeroCtr) → ∀ w ∈ (runChecksLoop audit ids s m gs g).rebuilt, w.zeroCtr)
      ∧ (runChecksLoop audit ids s m gs g).log.length = selChecks gs ids
      ∧ ((∀ ch2, stateIn5 (audit ch2)) →
          (runChecksLoop audit ids s m gs g).sum.total = s.total + selChecks gs ids)
      ∧ (runChecksLoop audit ids s m gs g).lvl.map Prod.fst = m.map Prod.fst
      ∧ ((∀ ch2, stateIn5 (audit ch2)) → (m.map Prod.fst).Nodup →
          lvlTotal (runChecksLoop audit ids s m gs g).lvl = lvlTotal m + selChecks gs ids) := by
  intro gs
  induction gs with
  | nil =>
    intro s m g hp
    refine ⟨?_, rfl, ?_, rfl, ?_⟩
    · intro hg
      simpa [runChecksLoop] using hg
    · intro haudit
      simp [runChecksLoop, selChecks_nil]
    · intro haudit hnd
      simp [runChecksLoop, selChecks_nil]
  | cons grp rest ih =>
    intro s m g hp
    simp only [runChecksLoop] at hp ⊢
    cases hlo : (runChecksList audit ids s m grp.Checks).panicked with
    | true => rw [hlo] at hp; simp at hp
    | false =>
      rw [hlo] at hp
      simp only [Bool.false_eq_true, if_false] at hp ⊢
      obtain ⟨llen, llog, ltot, lkeys, llvl⟩ := runChecksList_ok audit ids grp.Checks s m hlo
      obtain ⟨rmem, rlog, rtot, rkeys, rlvl⟩ := ih (runChecksList audit ids s m grp.Checks).sum
        (runChecksList audit ids s m grp.Checks).lvl
        ((runChecksList audit ids s m grp.Checks).matched.foldl
          (fun acc ch => upsertShell acc grp.ID grp.Text ch) g) hp
      refine ⟨?_, ?_, ?_, ?_, ?_⟩
      · intro hg
        exact rmem (foldl_upsert_zero grp.ID grp.Text _ g hg)
      · rw [List.length_append, llog, rlog, selChecks_cons]
      · intro haudit
        rw [rtot haudit, ltot haudit, selChecks_cons]
        omega
      · rw [rkeys, lkeys]
      · intro haudit hnd
        have hndm : (((runChecksList audit ids s m grp.Checks).lvl).map Prod.fst).Nodup := by
          rw [lkeys]; exact hnd
        rw [rlvl haudit hndm, llvl haudit hnd, selChecks_cons]
        omega

end KubeBench

namespace KubeBench

/-- C1: the claim says a level-gated check ends in state SKIP and its audit
procedure is never invoked.  On the code, `check.Run()` (line 112) is called
unconditionally right after the gating assignment, so on this catalog (user
level "1", check "1.1" requiring level "2", audit outcome PASS) the gated
check's Run is invoked (`log = ["1.1"]`), its final state is PASS, and the
run returns `Summary.Pass = 1`, `Summary.Skip = 0`. -/
theorem c1_gated_check_runs :
    (RunGroup audPass (mkCtl "1" [mkGroup "g1" [sampleCheck "1.1" "2"]]) ["g1"]).log = ["1.1"]
    ∧ ((RunGroup audPass (mkCtl "1" [mkGroup "g1" [sampleCheck "1.1" "2"]]) ["g1"]).ctl.Groups.map
        (fun g => g.Checks.map (fun c => c.State))) = [[PASS]]
    ∧ (RunGroup audPass (mkCtl "1" [mkGroup "g1" [sampleCheck "1.1" "2"]]) ["g1"]).ret
        = some (⟨1, 0, 0, 0, 0⟩, none) := by
  refine ⟨by decide, by decide, by decide⟩

/-- C6: the global summary and the level-keyed summary map are reset at the
start of every RunGroup/RunChecks invocation: the result of a run does not
depend on the summary state left behind by any previous run (both fields are
overwritten before anything else happens), so a second run's summary counts
only the second run's checks. -/
theorem c6_summary_reset (audit : Check → String) (ctl : Controls)
    (gids ids : List String) (s1 s2 : Summary) (m1 m2 : LvlMap) :
    RunGroup audit { ctl with summary := s1, SummaryLevelWise := m1 } gids
      = RunGroup audit { ctl with summary := s2, SummaryLevelWise := m2 } gids
    ∧ RunChecks audit { ctl with summary := s1, SummaryLevelWise := m1 } ids
      = RunChecks audit { ctl with summary := s2, SummaryLevelWise := m2 } ids := by
  cases ctl
  exact ⟨rfl, rfl⟩

/-- C10: RunChecks' returned Go error value is nil on every execution path
(the only non-returning path is a runtime panic, which produces no error
value), and RunChecks never reads the user-selected level: its outcome is
unchanged when `UserCISLevel` is replaced by anything else (the field is only
carried through into the result). -/
theorem c10_runchecks_never_errors (audit : Check → String) (ctl : Controls)
    (ids : List String) (x : String) :
    errOf (RunChecks audit ctl ids) = none
    ∧ (RunChecks audit { ctl with UserCISLevel := x } ids).ret = (RunChecks audit ctl ids).ret
    ∧ (RunChecks audit { ctl with UserCISLevel := x } ids).log = (RunChecks audit ctl ids).log
    ∧ (RunChecks audit { ctl with UserCISLevel := x } ids).ctl
        = { (RunChecks audit ctl ids).ctl with UserCISLevel := x } := by
  refine ⟨?_, ?_⟩
  · unfold RunChecks
    exact finishChecks_errOf _ _
  · cases ctl
    unfold RunChecks
    simp only [finishChecks_ret, finishChecks_log, finishChecks_ctl, getAllCheckIDs]
    simp

/-- C8: counter conservation.  For a run that returns without error, with
every audit outcome one of the five terminal states, the global summary's
five counters sum to the number of check executions selected in that run
(one per matching selection), which also equals the number of `Check.Run`
invocations recorded. -/
theorem c8_counter_conservation (audit : Check → String) (ctl : Controls)
    (gids ids : List String) (haudit : ∀ ch, stateIn5 (audit ch)) :
    ((RunGroup audit ctl gids).isOk = true →
      (RunGroup audit ctl gids).ctl.summary.total
        = selGroup ctl.Groups (if gids.isEmpty then getAllGroupIDs ctl else gids)
      ∧ (RunGroup audit ctl gids).log.length
        = selGroup ctl.Groups (if gids.isEmpty then getAllGroupIDs ctl else gids))
    ∧ ((RunChecks audit ctl ids).isOk = true →
      (RunChecks audit ctl ids).ctl.summary.total
        = selChecks ctl.Groups (if ids.isEmpty then getAllCheckIDs ctl else ids)
      ∧ (RunChecks audit ctl ids).log.length
        = selChecks ctl.Groups (if ids.isEmpty then getAllCheckIDs ctl else ids)) := by
  constructor
  · intro hok
    unfold RunGroup at hok ⊢
    dsimp only at hok ⊢
    cases hp : parseUint ctl.UserCISLevel with
    | none =>
      rw [hp] at hok
      simp [RunRes.isOk] at hok
    | some u =>
      rw [hp] at hok
      dsimp only at hok ⊢
      rw [finishGroup_isOk] at hok
      obtain ⟨_, hlog, htot, _, _⟩ := runGroupLoop_ok audit u _ ctl.Groups _ hok
      rw [finishGroup_ok_ctl _ hok, finishGroup_log]
      constructor
      · rw [htot haudit]
        simp [getAllGroupIDs, Summary.total, Summary.zero]
      · rw [hlog]
        simp [getAllGroupIDs]
  · intro hok
    unfold RunChecks at hok ⊢
    dsimp only at hok ⊢
    rw [finishChecks_isOk] at hok
    obtain ⟨_, hlog, htot, _, _⟩ := runChecksLoop_ok audit _ ctl.Groups _ _ [] hok
    rw [finishChecks_ctl, finishChecks_log]
    constructor
    · dsimp only
      rw [htot haudit]
      simp [getAllCheckIDs, Summary.total, Summary.zero]
    · rw [hlog]
      simp [getAllCheckIDs]

/-- C8 witness: on a concrete two-check catalog run in full at user level
"2" with every audit returning PASS, both conservation equalities hold. -/
theorem c8_counter_conservation_witness :
    (RunGroup audPass (mkCtl "2" [mkGroup "g1" [sampleCheck "1.1" "1", sampleCheck "1.2" "2"]]) []).isOk = true
    ∧ (RunGroup audPass (mkCtl "2" [mkGroup "g1" [sampleCheck "1.1" "1", sampleCheck "1.2" "2"]]) []).ctl.summary.total
        = selGroup (mkCtl "2" [mkGroup "g1" [sampleCheck "1.1" "1", sampleCheck "1.2" "2"]]).Groups
            (getAllGroupIDs (mkCtl "2" [mkGroup "g1" [sampleCheck "1.1" "1", sampleCheck "1.2" "2"]])) :=
  ⟨by decide,
    by
      have h := (c8_counter_conservation audPass
        (mkCtl "2" [mkGroup "g1" [sampleCheck "1.1" "1", sampleCheck "1.2" "2"]]) [] ["1.1"]
        (fun c => Or.inl rfl)).1 (by decide)
      simpa using h.1⟩


end KubeBench

namespace KubeBench

/-- First run of the C2 two-run scenario: one group with one passing
level-1 check, run at user level "1". -/
def c2FirstRun : RunRes :=
  RunGroup audPass (mkCtl "1" [mkGroup "g1" [sampleCheck "1.1" "1"]]) ["g1"]

/-- C2 counterexample: running RunGroup a second time on the Controls left
by the first run yields a group whose Pass counter is 2 although only one
member check is in state PASS — the counters are not reset at the start of
the second run, refuting the claimed invariant. -/
theorem c2_counterexample :
    ((RunGroup audPass c2FirstRun.ctl ["g1"]).ctl.Groups.map
        (fun w => (w.Pass, (w.Checks.filter (fun c => c.State == PASS)).length))) = [(2, 1)]
    ∧ ¬ (∀ w ∈ (RunGroup audPass c2FirstRun.ctl ["g1"]).ctl.Groups,
        w.Pass = (w.Checks.filter (fun c => c.State == PASS)).length) := by
  refine ⟨by decide, by decide⟩

/-- C2 amended: group counters are not reset at the start of a run.
RunChecks synthesizes fresh group shells whose five counters are all zero
and never updates them; RunGroup only ever increments each matched group's
existing counters (each rebuilt entry's counters are at least the pre-run
values, and accumulate across successive runs as the counterexample shows). -/
theorem c2_group_counters_amended (audit : Check → String) (ctl : Controls)
    (gids ids : List String) :
    ((RunChecks audit ctl ids).isOk = true →
      ∀ w ∈ (RunChecks audit ctl ids).ctl.Groups,
        w.Pass = 0 ∧ w.Fail = 0 ∧ w.Warn = 0 ∧ w.Skip = 0 ∧ w.Info = 0)
    ∧ ((RunGroup audit ctl gids).isOk = true →
      ∀ w ∈ (RunGroup audit ctl gids).ctl.Groups,
        ∃ g0 ∈ ctl.Groups, w.ID = g0.ID ∧ g0.Pass ≤ w.Pass ∧ g0.Fail ≤ w.Fail
          ∧ g0.Warn ≤ w.Warn ∧ g0.Skip ≤ w.Skip ∧ g0.Info ≤ w.Info) := by
  constructor
  · intro hok w hw
    unfold RunChecks at hok hw
    dsimp only at hok hw
    rw [finishChecks_isOk] at hok
    rw [finishChecks_ctl] at hw
    dsimp only at hw
    simp only [hok, Bool.false_eq_true, if_false] at hw
    obtain ⟨hzero, _, _, _, _⟩ := runChecksLoop_ok audit _ ctl.Groups _ _ [] hok
    exact hzero (by intro w2 hw2; cases hw2) w hw
  · intro hok w hw
    unfold RunGroup at hok hw
    dsimp only at hok hw
    cases hp : parseUint ctl.UserCISLevel with
    | none => rw [hp] at hok; simp [RunRes.isOk] at hok
    | some u =>
      rw [hp] at hok hw
      dsimp only at hok hw
      rw [finishGroup_isOk] at hok
      rw [finishGroup_ok_ctl _ hok] at hw
      dsimp only at hw
      obtain ⟨hmem, _, _, _, _⟩ := runGroupLoop_ok audit u _ ctl.Groups _ hok
      obtain ⟨g0, hg0, hid, h1, h2, h3, h4, h5, _⟩ := hmem w hw
      exact ⟨g0, hg0, hid, h1, h2, h3, h4, h5⟩

/-- C2 witness: both parts applied to the concrete one-group catalog. -/
theorem c2_group_counters_amended_witness :
    ((RunChecks audPass (mkCtl "1" [mkGroup "g1" [sampleCheck "1.1" "1"]]) ["1.1"]).isOk = true)
    ∧ ∀ w ∈ (RunChecks audPass (mkCtl "1" [mkGroup "g1" [sampleCheck "1.1" "1"]]) ["1.1"]).ctl.Groups,
        w.Pass = 0 ∧ w.Fail = 0 ∧ w.Warn = 0 ∧ w.Skip = 0 ∧ w.Info = 0 :=
  ⟨by decide,
    (c2_group_counters_amended audPass (mkCtl "1" [mkGroup "g1" [sampleCheck "1.1" "1"]])
      ["g1"] ["1.1"]).1 (by decide)⟩

/-- C3 counterexample: in a successful RunChecks run whose one selected check
passes, the rebuilt group's Pass counter is 0 and does not reflect the PASS
state of the check it contains — summarizeGroup is never invoked by
RunChecks, refuting the claim that all three summary views are updated. -/
theorem c3_counterexample :
    ((RunChecks audPass (mkCtl "1" [mkGroup "g1" [sampleCheck "1.1" "1"]]) ["1.1"]).ctl.Groups.map
        (fun w => (w.Pass, (w.Checks.filter (fun c => c.State == PASS)).length))) = [(0, 1)]
    ∧ ¬ (∀ w ∈ (RunChecks audPass (mkCtl "1" [mkGroup "g1" [sampleCheck "1.1" "1"]]) ["1.1"]).ctl.Groups,
        w.Pass = (w.Checks.filter (fun c => c.State == PASS)).length) := by
  refine ⟨by decide, by decide⟩

/-- C3 amended: per executed check RunGroup updates all three views — after a
successful RunGroup the global summary total, the level-keyed total, and
each rebuilt group's counter total all account exactly for that run's
executions (one per matching selection, the group getting its own share on
top of its pre-run counters) — whereas RunChecks updates only the global and
level-keyed views and leaves every rebuilt group's counters at zero. -/
theorem c3_three_views_amended (audit : Check → String) (ctl : Controls)
    (gids ids : List String) (haudit : ∀ ch, stateIn5 (audit ch)) :
    ((RunGroup audit ctl gids).isOk = true →
      (RunGroup audit ctl gids).ctl.summary.total
        = selGroup ctl.Groups (if gids.isEmpty then getAllGroupIDs ctl else gids)
      ∧ lvlTotal (RunGroup audit ctl gids).ctl.SummaryLevelWise
        = selGroup ctl.Groups (if gids.isEmpty then getAllGroupIDs ctl else gids)
      ∧ (∀ w ∈ (RunGroup audit ctl gids).ctl.Groups,
          ∃ g0 ∈ ctl.Groups, w.ID = g0.ID
            ∧ w.ctrTotal = g0.ctrTotal
                + (if gids.isEmpty then getAllGroupIDs ctl else gids).countP (fun gid => gid == g0.ID)
                  * g0.Checks.length))
    ∧ ((RunChecks audit ctl ids).isOk = true →
      (RunChecks audit ctl ids).ctl.summary.total
        = selChecks ctl.Groups (if ids.isEmpty then getAllCheckIDs ctl else ids)
      ∧ lvlTotal (RunChecks audit ctl ids).ctl.SummaryLevelWise
        = selChecks ctl.Groups (if ids.isEmpty then getAllCheckIDs ctl else ids)
      ∧ (∀ w ∈ (RunChecks audit ctl ids).ctl.Groups, w.ctrTotal = 0)) := by
  constructor
  · intro hok
    unfold RunGroup at hok ⊢
    dsimp only at hok ⊢
    cases hp : parseUint ctl.UserCISLevel with
    | none => rw [hp] at hok; simp [RunRes.isOk] at hok
    | some u =>
      rw [hp] at hok
      dsimp only at hok ⊢
      rw [finishGroup_isOk] at hok
      obtain ⟨hmem, _, htot, _, hlvl⟩ := runGroupLoop_ok audit u _ ctl.Groups _ hok
      rw [finishGroup_ok_ctl _ hok]
      refine ⟨?_, ?_, ?_⟩
      · rw [htot haudit]
        simp [getAllGroupIDs, Summary.total, Summary.zero]
      · dsimp only
        rw [hlvl haudit (show (List.map Prod.fst initLvl).Nodup by decide)]
        simp [getAllGroupIDs, initLvl, lvlTotal, Summary.total, Summary.zero]
      · dsimp only
        intro w hw
        obtain ⟨g0, hg0, hid, _, _, _, _, _, hctr⟩ := hmem w hw
        refine ⟨g0, hg0, hid, ?_⟩
        rw [hctr haudit]
        simp [getAllGroupIDs]
  · intro hok
    unfold RunChecks at hok ⊢
    dsimp only at hok ⊢
    rw [finishChecks_isOk] at hok
    obtain ⟨hzero, _, htot, _, hlvl⟩ := runChecksLoop_ok audit _ ctl.Groups _ _ [] hok
    rw [finishChecks_ctl]
    dsimp only
    simp only [hok, Bool.false_eq_true, if_false]
    refine ⟨?_, ?_, ?_⟩
    · rw [htot haudit]
      simp [getAllCheckIDs, Summary.total, Summary.zero]
    · rw [hlvl haudit (show (List.map Prod.fst initLvl).Nodup by decide)]
      simp [getAllCheckIDs, initLvl, lvlTotal, Summary.total, Summary.zero]
    · intro w hw
      have hz := hzero (by intro w2 hw2; cases hw2) w hw
      unfold Group.ctrTotal
      rw [hz.1, hz.2.1, hz.2.2.1, hz.2.2.2.1, hz.2.2.2.2]

/-- C3 witness: the RunChecks half applied to the concrete catalog: the
global and level totals both equal 1 while the rebuilt group's counters
total 0. -/
theorem c3_three_views_amended_witness :
    ((RunChecks audPass (mkCtl "1" [mkGroup "g1" [sampleCheck "1.1" "1"]]) ["1.1"]).isOk = true)
    ∧ (RunChecks audPass (mkCtl "1" [mkGroup "g1" [sampleCheck "1.1" "1"]]) ["1.1"]).ctl.summary.total
        = selChecks (mkCtl "1" [mkGroup "g1" [sampleCheck "1.1" "1"]]).Groups ["1.1"]
    ∧ ∀ w ∈ (RunChecks audPass (mkCtl "1" [mkGroup "g1" [sampleCheck "1.1" "1"]]) ["1.1"]).ctl.Groups,
        w.ctrTotal = 0 :=
  ⟨by decide,
    by
      have h := (c3_three_views_amended audPass (mkCtl "1" [mkGroup "g1" [sampleCheck "1.1" "1"]])
        ["g1"] ["1.1"] (fun c => Or.inl rfl)).2 (by decide)
      simpa using h.1,
    by
      have h := (c3_three_views_amended audPass (mkCtl "1" [mkGroup "g1" [sampleCheck "1.1" "1"]])
        ["g1"] ["1.1"] (fun c => Or.inl rfl)).2 (by decide)
      exact h.2.2⟩


end KubeBench

namespace KubeBench

/-- C4 counterexample: the run methods initialize the level map with keys
"1" and "2" only; a check carrying required level "3" that reaches
aggregation in state PASS hits a missing map entry — `summarizeLevel`
dereferences a nil pointer and the whole run panics (`ret = none`) instead
of the lookup succeeding. -/
theorem c4_counterexample :
    (RunChecks audPass (mkCtl "1" [mkGroup "g1" [sampleCheck "1.1" "3"]]) ["1.1"]).ret = none
    ∧ summarizeLevel initLvl { sampleCheck "1.1" "3" with State := PASS } = none := by
  refine ⟨by decide, by decide⟩

/-- C4 amended: the level-keyed fold targets the entry keyed by the check's
own required-level string (the bucket under that key is the one incremented
and all other keys are untouched), but the lookup succeeds only when that
key is present in the map — for a missing key (any level other than the
pre-initialized "1"/"2" at run time) the fold is a nil-pointer panic. -/
theorem c4_level_key_amended (m : LvlMap) (ch : Check) (h5 : stateIn5 ch.State) :
    (lvlGet m ch.CheckCISLevel = none → summarizeLevel m ch = none)
    ∧ (∀ s, lvlGet m ch.CheckCISLevel = some s →
        ∃ m2 s2, summarizeLevel m ch = some m2
          ∧ s2.total = s.total + 1
          ∧ lvlGet m2 ch.CheckCISLevel = some s2
          ∧ ∀ k2, k2 ≠ ch.CheckCISLevel → lvlGet m2 k2 = lvlGet m k2) := by
  constructor
  · intro h
    exact summarizeLevel_missing m ch h5 h
  · intro s hs
    obtain ⟨s2, hs2, heq⟩ := summarizeLevel_present m ch s h5 hs
    exact ⟨_, s2, heq, hs2, lvlGet_set_self m _ s s2 hs,
      fun k2 hk2 => lvlGet_set_other m _ k2 s2 hk2⟩

/-- C4 witness: the missing-key case applied to the concrete level-"3"
check in state PASS against the initial map. -/
theorem c4_level_key_amended_witness :
    lvlGet initLvl ({ sampleCheck "1.1" "3" with State := PASS } : Check).CheckCISLevel = none
    ∧ summarizeLevel initLvl { sampleCheck "1.1" "3" with State := PASS } = none :=
  ⟨by decide,
    (c4_level_key_amended initLvl { sampleCheck "1.1" "3" with State := PASS }
      (Or.inl rfl)).1 (by decide)⟩

/-- Controls with an unparseable user level and a non-zero summary left
over from earlier activity, for the C5 scenario. -/
def c5Prior : Controls :=
  { mkCtl "x" [mkGroup "g1" [sampleCheck "1.1" "1"]] with summary := ⟨5, 0, 0, 0, 0⟩ }

/-- C5 counterexample: on a user-level parse failure the run does return a
LevelParseError immediately, but the Controls is not left as it was before
the run: the global summary, Pass = 5 before the call, has already been
reset to zero when the error is returned. -/
theorem c5_counterexample :
    (RunGroup audPass c5Prior []).ret = some (Summary.zero, some GoErr.userLevelParse)
    ∧ ¬ ((RunGroup audPass c5Prior []).ctl.summary = c5Prior.summary) := by
  refine ⟨by decide, by decide⟩

/-- C5 amended: a level parse failure still aborts the run immediately — on
a user-level failure no check is iterated (`Check.Run` is never invoked,
the log is empty) and on either failure `Groups` keeps the original group
list (same length, not a rebuilt selection) — but the Controls state is not
left untouched: the global and level-keyed summaries are reset at the start
of the call, so the returned summary is the zeroed (possibly partially
refilled) one, not the pre-run state. -/
theorem c5_abort_amended (audit : Check → String) (ctl : Controls) (gids : List String) :
    (parseUint ctl.UserCISLevel = none →
      RunGroup audit ctl gids
        = ⟨{ ctl with summary := Summary.zero, SummaryLevelWise := initLvl },
            some (Summary.zero, some GoErr.userLevelParse), []⟩)
    ∧ (∀ s e, (RunGroup audit ctl gids).ret = some (s, some e) →
        (RunGroup audit ctl gids).ctl.Groups.length = ctl.Groups.length) := by
  constructor
  · intro hp
    unfold RunGroup
    dsimp only
    rw [hp]
  · intro s e hret
    unfold RunGroup at hret ⊢
    dsimp only at hret ⊢
    cases hp : parseUint ctl.UserCISLevel with
    | none =>
      rfl
    | some u =>
      rw [hp] at hret
      dsimp only at hret ⊢
      obtain ⟨hab, hgroups⟩ := finishGroup_err _ s e hret
      rw [hgroups]
      exact runGroupLoop_origLen audit u _ ctl.Groups _

/-- C5 witness: the user-level-failure case applied to the concrete
controls with level "x". -/
theorem c5_abort_amended_witness :
    parseUint c5Prior.UserCISLevel = none
    ∧ RunGroup audPass c5Prior []
        = ⟨{ c5Prior with summary := Summary.zero, SummaryLevelWise := initLvl },
            some (Summary.zero, some GoErr.userLevelParse), []⟩ :=
  ⟨by decide, (c5_abort_amended audPass c5Prior []).1 (by decide)⟩


end KubeBench

namespace KubeBench

/-- C9: NewControls rejects a node-type mismatch (no Controls produced),
returns nothing when the source fails to parse, and on success stores the
caller-supplied compliance level and derives every check's Commands from its
Audit text. -/
theorem c9_newcontrols_load (t2c : String → List String) (t level : String) (c : Controls) :
    (c.nodeType ≠ t → NewControls t2c t level (some c) = none)
    ∧ (c.nodeType = t → ∃ c2, NewControls t2c t level (some c) = some c2
        ∧ c2.UserCISLevel = level
        ∧ ∀ g ∈ c2.Groups, ∀ ch ∈ g.Checks, ch.Commands = t2c ch.Audit)
    ∧ NewControls t2c t level none = none := by
  refine ⟨fun h => ?_, fun h => ?_, rfl⟩
  · unfold NewControls
    dsimp only
    rw [if_pos]
    exact fun he => h he.symm
  · unfold NewControls
    dsimp only
    rw [if_neg (show ¬ (t ≠ ({ c with UserCISLevel := level } : Controls).nodeType) from fun hne => hne h.symm)]
    refine ⟨_, rfl, rfl, ?_⟩
    intro g hg ch hch
    simp only [List.mem_map] at hg
    obtain ⟨g0, _, rfl⟩ := hg
    simp only [List.mem_map] at hch
    obtain ⟨ch0, _, rfl⟩ := hch
    rfl

/-- C9 witness: the mismatch case on a concrete worker-node catalog
requested as "master". -/
theorem c9_newcontrols_load_witness :
    ({ mkCtl "1" [] with nodeType := "node" } : Controls).nodeType ≠ "master"
    ∧ NewControls (fun s => [s]) "master" "1" (some { mkCtl "1" [] with nodeType := "node" }) = none :=
  ⟨by decide,
    (c9_newcontrols_load (fun s => [s]) "master" "1" { mkCtl "1" [] with nodeType := "node" }).1 (by decide)⟩


end KubeBench

namespace KubeBench

/-- Folding two checks into an empty shell list creates exactly one shell
holding both checks in order. -/
theorem upsert_two (gid txt : String) (x1 x2 : Check) :
    List.foldl (fun acc ch => upsertShell acc gid txt ch) [] [x1, x2]
      = [{ ID := gid, Text := txt, Pass := 0, Fail := 0, Warn := 0, Skip := 0, Info := 0, Checks := [x1, x2] }] := by
  simp only [List.foldl_cons, List.foldl_nil]
  unfold upsertShell
  simp

/-- C7: group-rebuild semantics differ between the two run modes.  On a
single-group catalog, a successful `RunGroup` invoked with the group's ID
listed twice rebuilds `Groups` with two entries for that group (both the
same final value, its checks executed once per match), while a successful
`RunChecks` invoked with the IDs of the group's two (distinct) checks
rebuilds exactly one group entry containing both checks. -/
theorem c7_group_dedup_difference (audit : Check → String) (ctl ctl2 : Controls)
    (g g2 : Group) (c1 c2 : Check)
    (hA : ctl.Groups = [g])
    (hB : ctl2.Groups = [g2]) (hBc : g2.Checks = [c1, c2]) (hab : c1.ID ≠ c2.ID) :
    ((RunGroup audit ctl [g.ID, g.ID]).isOk = true →
      ∃ w, (RunGroup audit ctl [g.ID, g.ID]).ctl.Groups = [w, w])
    ∧ ((RunChecks audit ctl2 [c1.ID, c2.ID]).isOk = true →
      ∃ w w1 w2, (RunChecks audit ctl2 [c1.ID, c2.ID]).ctl.Groups = [w]
        ∧ w.Checks = [w1, w2] ∧ w1.ID = c1.ID ∧ w2.ID = c2.ID) := by
  constructor
  · intro hok
    unfold RunGroup at hok ⊢
    dsimp only at hok ⊢
    cases hp : parseUint ctl.UserCISLevel with
    | none => rw [hp] at hok; simp [RunRes.isOk] at hok
    | some u =>
      rw [hp] at hok
      dsimp only at hok ⊢
      rw [finishGroup_isOk] at hok
      rw [finishGroup_ok_ctl _ hok]
      dsimp only
      rw [hA] at hok ⊢
      simp only [List.isEmpty_cons, Bool.false_eq_true, if_false] at hok ⊢
      simp only [runGroupLoop] at hok ⊢
      have hk : List.countP (fun gid => gid == g.ID) [g.ID, g.ID] = 2 := by
        simp [List.countP_cons]
      rw [hk] at hok ⊢
      split at hok
      · next a heq =>
        dsimp only at hok
        simp at hok
      · next heq =>
        dsimp only
        simp only [List.replicate, List.append_nil]
        exact ⟨_, rfl⟩
  · intro hok
    unfold RunChecks at hok ⊢
    dsimp only at hok ⊢
    rw [finishChecks_isOk] at hok
    rw [finishChecks_ctl]
    dsimp only
    simp only [hok, Bool.false_eq_true, if_false]
    rw [hB] at hok ⊢
    simp only [List.isEmpty_cons, Bool.false_eq_true, if_false] at hok ⊢
    simp only [runChecksLoop] at hok ⊢
    rw [hBc] at hok ⊢
    simp only [runChecksList] at hok ⊢
    have hk1 : List.countP (fun i => i == c1.ID) [c1.ID, c2.ID] = 1 := by
      simp [List.countP_cons]
      intro hc
      exact absurd hc.symm hab
    have hk2 : List.countP (fun i => i == c2.ID) [c1.ID, c2.ID] = 1 := by
      simp [List.countP_cons]
      intro hc
      exact absurd hc hab
    rw [hk1, hk2] at hok ⊢
    cases hm1 : (runChecksMatches audit 1 Summary.zero initLvl c1).panicked with
    | true => rw [hm1] at hok; simp at hok
    | false =>
      rw [hm1] at hok
      simp only [Bool.false_eq_true, if_false] at hok ⊢
      cases hm2 : (runChecksMatches audit 1 (runChecksMatches audit 1 Summary.zero initLvl c1).sum
          (runChecksMatches audit 1 Summary.zero initLvl c1).lvl c2).panicked with
      | true => rw [hm2] at hok; simp at hok
      | false =>
        simp only [Bool.false_eq_true, if_false]
        obtain ⟨hid1, _, _, _, _⟩ := runChecksMatches_ok audit 1 Summary.zero initLvl c1 hm1
        obtain ⟨hid2, _, _, _, _⟩ := runChecksMatches_ok audit 1 (runChecksMatches audit 1 Summary.zero initLvl c1).sum
          (runChecksMatches audit 1 Summary.zero initLvl c1).lvl c2 hm2
        simp only [List.replicate, List.append_nil, List.cons_append, List.nil_append]
        rw [upsert_two]
        exact ⟨_, _, _, rfl, rfl, hid1, hid2⟩



/-- Single group for the C7 RunGroup scenario. -/
def c7g : Group := mkGroup "g1" [sampleCheck "1.1" "1"]

/-- Single group with two checks for the C7 RunChecks scenario. -/
def c7g2 : Group := mkGroup "g1" [sampleCheck "1.1" "1", sampleCheck "1.2" "1"]

/-- C7 witness: on concrete catalogs, requesting the same group ID twice via
RunGroup rebuilds two group entries, while requesting the two check IDs of
one group via RunChecks rebuilds exactly one. -/
theorem c7_group_dedup_difference_witness :
    ((RunGroup audPass (mkCtl "1" [c7g]) [c7g.ID, c7g.ID]).isOk = true)
    ∧ (RunGroup audPass (mkCtl "1" [c7g]) [c7g.ID, c7g.ID]).ctl.Groups.length = 2
    ∧ ((RunChecks audPass (mkCtl "1" [c7g2]) [(sampleCheck "1.1" "1").ID, (sampleCheck "1.2" "1").ID]).isOk = true)
    ∧ (RunChecks audPass (mkCtl "1" [c7g2]) [(sampleCheck "1.1" "1").ID, (sampleCheck "1.2" "1").ID]).ctl.Groups.length = 1 := by
  refine ⟨by decide, ?_, by decide, ?_⟩
  · obtain ⟨w, hw⟩ := (c7_group_dedup_difference audPass (mkCtl "1" [c7g]) (mkCtl "1" [c7g2])
      c7g c7g2 (sampleCheck "1.1" "1") (sampleCheck "1.2" "1") rfl rfl rfl (by decide)).1 (by decide)
    rw [hw]
    rfl
  · obtain ⟨w, w1, w2, hw, _, _, _⟩ := (c7_group_dedup_difference audPass (mkCtl "1" [c7g]) (mkCtl "1" [c7g2])
      c7g c7g2 (sampleCheck "1.1" "1") (sampleCheck "1.2" "1") rfl rfl rfl (by decide)).2 (by decide)
    rw [hw]
    rfl


end KubeBench
